import Mathlib

/-!
Verification of the core logic of the YearlyAlbums repository
(`src/YearlyAlbums.py`, the Streamlit variant, and
`src/YearlyAlbums_gradio.py`, the Gradio/FastAPI variant).

The development is a shallow embedding of:

* the release-date parsing performed by `get_top_albums` /
  `fetch_top_albums` (CPython `datetime.strptime` with the formats
  `"%Y"`, `"%Y-%m"`, `"%Y-%m-%d"`, dispatched on string length, plus the
  calendar validation done by the `datetime` constructor);
* the per-track filtering/deduplication/bucketing loop
  (`YearlyAlbums.py` lines 89-125, textually identical to
  `YearlyAlbums_gradio.py` lines 86-122), both as a typed pure function
  over well-formed track records and as a monadic function over
  dynamically typed Python values in which attribute errors raise;
* the pagination loop of `get_top_albums` (lines 78-87), its exception
  handlers (lines 137-142), and the single-fetch Gradio variant
  (lines 76-80);
* the OAuth callback handler `handle_auth` (lines 236-297), the Gradio
  `/callback` route (lines 362-380), and `refresh_access_token`
  (lines 303-336), modelled as pure functions over a session state with
  the network exchange abstracted as an oracle argument.

Python `datetime.now().year` is modelled as a parameter `cy` (the
"current year"), assumed constant within one aggregation run.  Numeric
strings are modelled over ASCII digits (the `\d` of CPython `_strptime`
additionally accepts non-ASCII decimal digits; no claim depends on
that).  The Streamlit/Gradio UI framework, the HTTP transport and the
image rendering are external collaborators and are not modelled.
-/

/-! ## Release-date parsing (`datetime.strptime`, lines 102-108 / 99-105) -/

/-- Value of an ASCII digit character, `none` for non-digits.  Models the
`\d` character class of CPython `_strptime` restricted to ASCII. -/
def digVal? (c : Char) : Option Nat :=
  if c = '0' then some 0
  else if c = '1' then some 1
  else if c = '2' then some 2
  else if c = '3' then some 3
  else if c = '4' then some 4
  else if c = '5' then some 5
  else if c = '6' then some 6
  else if c = '7' then some 7
  else if c = '8' then some 8
  else if c = '9' then some 9
  else none

/-- The `%Y` directive: exactly four digits. -/
def year4 : List Char → Option Nat
  | [a, b, c, d] =>
    match digVal? a, digVal? b, digVal? c, digVal? d with
    | some va, some vb, some vc, some vd =>
      some (1000 * va + 100 * vb + 10 * vc + vd)
    | _, _, _, _ => none
  | _ => none

/-- The `%m` directive when exactly two characters are available and the
whole string must be consumed (the `"%Y-%m"` format on a length-7
string): two digits forming a value in `1..12`. -/
def month2 (c1 c2 : Char) : Option Nat :=
  match digVal? c1, digVal? c2 with
  | some v1, some v2 =>
    if 1 ≤ 10 * v1 + v2 ∧ 10 * v1 + v2 ≤ 12 then some (10 * v1 + v2) else none
  | _, _ => none

/-- Candidate matches of the `%m` regex `1[0-2]|0[1-9]|[1-9]`, in the
alternation order used by CPython `_strptime` (the regex engine
backtracks through this list). Each candidate is the month value paired
with the unconsumed rest of the input. -/
def monthCands (cs : List Char) : List (Nat × List Char) :=
  match cs with
  | c1 :: c2 :: rest =>
    (match digVal? c1, digVal? c2 with
     | some 1, some v2 => if v2 ≤ 2 then [(10 + v2, rest)] else []
     | _, _ => []) ++
    (match digVal? c1, digVal? c2 with
     | some 0, some v2 => if 1 ≤ v2 ∧ v2 ≤ 9 then [(v2, rest)] else []
     | _, _ => []) ++
    (match digVal? c1 with
     | some v1 => if 1 ≤ v1 ∧ v1 ≤ 9 then [(v1, c2 :: rest)] else []
     | none => [])
  | [c1] =>
    (match digVal? c1 with
     | some v1 => if 1 ≤ v1 ∧ v1 ≤ 9 then [(v1, [])] else []
     | none => [])
  | [] => []

/-- First match of the `%d` regex `3[01]|[12]\d|0[1-9]|[1-9]`.  The day
group is the last group of the `"%Y-%m-%d"` pattern, so the regex engine
commits to the first alternative that matches; leftover input is only
detected afterwards by the "unconverted data remains" check. -/
def dayFirst (cs : List Char) : Option (Nat × List Char) :=
  match cs with
  | c1 :: rest1 =>
    match digVal? c1 with
    | none => none
    | some v1 =>
      match rest1 with
      | c2 :: rest2 =>
        match digVal? c2 with
        | some v2 =>
          if v1 = 3 ∧ v2 ≤ 1 then some (30 + v2, rest2)
          else if 1 ≤ v1 ∧ v1 ≤ 2 then some (10 * v1 + v2, rest2)
          else if v1 = 0 ∧ 1 ≤ v2 then some (v2, rest2)
          else if 1 ≤ v1 then some (v1, c2 :: rest2)
          else none
        | none =>
          if 1 ≤ v1 then some (v1, c2 :: rest2) else none
      | [] => if 1 ≤ v1 then some (v1, []) else none
  | [] => none

/-- First result of `f` over a list, in order (regex alternation). -/
def firstMatch {α β : Type} (f : α → Option β) : List α → Option β
  | [] => none
  | x :: xs =>
    match f x with
    | some b => some b
    | none => firstMatch f xs

/-- Regex phase of `strptime(s, "%Y-%m-%d")`: four digits, a literal
dash, a month (with backtracking through the alternatives, since a
literal dash and the day group follow it), a literal dash, a day (first
alternative wins).  Returns year, month, day and the unconsumed rest. -/
def matchYMD (cs : List Char) : Option (Nat × Nat × Nat × List Char) :=
  match cs with
  | a :: b :: c :: d :: '-' :: rest =>
    match year4 [a, b, c, d] with
    | none => none
    | some y =>
      firstMatch (fun mc =>
        match mc.2 with
        | '-' :: rest2 => (dayFirst rest2).map (fun dc => (y, mc.1, dc.1, dc.2))
        | _ => none) (monthCands rest)
  | _ => none

/-- Leap-year rule used by `datetime`. -/
def isLeap (y : Nat) : Bool :=
  (y % 4 == 0 && y % 100 != 0) || y % 400 == 0

/-- Number of days of month `m` of year `y` (`datetime` day validation). -/
def daysInMonth (y m : Nat) : Nat :=
  if m = 2 then (if isLeap y then 29 else 28)
  else if m = 4 ∨ m = 6 ∨ m = 9 ∨ m = 11 then 30
  else 31

/-- Model of lines 102-108: parse a release-date string by length
(4 → `"%Y"`, 7 → `"%Y-%m"`, otherwise `"%Y-%m-%d"`), returning the
`(year, month)` of the resulting `datetime` value, or `none` where
Python raises `ValueError` (regex failure, unconverted data, or an
out-of-range component rejected by the `datetime` constructor, which
requires `1 ≤ year` and a day that exists in the given month).  The
`"%Y"` format leaves month and day at their defaults (January 1st). -/
def parseReleaseDate (s : String) : Option (Nat × Nat) :=
  if s.length = 4 then
    match year4 s.data with
    | some y => if 1 ≤ y then some (y, 1) else none
    | none => none
  else if s.length = 7 then
    match s.data with
    | [a, b, c, d, '-', e, f] =>
      match year4 [a, b, c, d], month2 e f with
      | some y, some m => if 1 ≤ y then some (y, m) else none
      | _, _ => none
    | _ => none
  else
    match matchYMD s.data with
    | some (y, m, d, leftover) =>
      if leftover = [] ∧ 1 ≤ y ∧ d ≤ daysInMonth y m then some (y, m) else none
    | none => none

/-! ## Month keys and the fixed 13-month frame (lines 118 and 127-135) -/

/-- Model of `strftime("%m/%y")` on the first of month `m` of year `y`:
the zero-padded two-digit month, a slash, and the zero-padded last two
digits of the year. -/
def monthKey (m y : Nat) : String :=
  String.mk [Nat.digitChar (m / 10 % 10), Nat.digitChar (m % 10), '/',
             Nat.digitChar (y % 100 / 10), Nat.digitChar (y % 100 % 10)]

/-- Model of lines 127-132: the fixed month-key order, December of the
previous year followed by January through December of the current
year. -/
def monthsList (cy : Nat) : List String :=
  monthKey 12 (cy - 1) :: (List.range 12).map (fun i => monthKey (i + 1) cy)

/-- Model of line 134: the ordered result dictionary, one entry per month
key of `monthsList`, whose value is the accumulated bucket (defaulting
to the empty list, as with `defaultdict`/`dict.get`). -/
def mkResult {R : Type} (cy : Nat) (buckets : String → List R) :
    List (String × List R) :=
  (monthsList cy).map (fun mo => (mo, buckets mo))

/-! ## Typed per-track aggregation (lines 89-125 / 86-122)

The per-track loop body, as a pure function over well-formed track
records: every field access succeeds and has the type the code expects.
The dynamically-typed variant, in which field accesses can raise, is
`processTrackE` below; the two agree on well-formed tracks. -/

/-- Well-formed track as consumed by lines 90-96: the fields extracted
from `track['album']`.  `image_url` is `album['images'][0]['url']` when
`album['images']` is non-empty, `none` otherwise (line 94). -/
structure Track where
  album_name : String
  release_date : String
  image_url : Option String
  artist_names : List String
  total_tracks : Int
deriving DecidableEq

/-- Album record appended to a bucket (lines 120-124). -/
structure Record where
  name : String
  artist : String
  image_url : Option String
deriving DecidableEq

/-- Record derived from a track (lines 91, 94-95 and 120-124); the artist
field is the comma-joined artist names of line 95. -/
def recordOf (t : Track) : Record :=
  { name := t.album_name
    artist := String.intercalate ", " t.artist_names
    image_url := t.image_url }

/-- Mutable state of the aggregation loop: `seen_albums` and the
`top_albums` default-dictionary (represented as a total function that
returns the empty bucket for absent keys). -/
structure AggState where
  seen : List String
  buckets : String → List Record

/-- Initial loop state (lines 74 and 76). -/
def initState : AggState := ⟨[], fun _ => []⟩

/-- Model of one iteration of the loop of lines 89-125 over a well-formed
track: skip when the album has fewer than 3 tracks (98-100); skip when
the release date fails to parse or its year is out of the guarded range
(102-115, the raised `ValueError` being caught by the inner handler);
keep only current-year albums or December of the previous year (117);
deduplicate by album name (119, 125) and append the record to the bucket
of the `"%m/%y"` key (118, 120-124). -/
def stepTrack (cy : Nat) (st : AggState) (t : Track) : AggState :=
  if t.total_tracks < 3 then st
  else
    match parseReleaseDate t.release_date with
    | none => st
    | some (y, m) =>
      if y ≤ 1900 ∨ cy < y then st
      else if y = cy ∨ (y = cy - 1 ∧ m = 12) then
        if t.album_name ∈ st.seen then st
        else
          { seen := t.album_name :: st.seen
            buckets := fun k =>
              if k = monthKey m y then st.buckets k ++ [recordOf t]
              else st.buckets k }
      else st

/-- The whole per-track loop (lines 89-125) over a list of well-formed
tracks. -/
def runTracks (cy : Nat) (tracks : List Track) (st : AggState) : AggState :=
  tracks.foldl (stepTrack cy) st

/-- The aggregation of lines 89-135 over well-formed tracks: run the
per-track loop from the empty state and build the ordered 13-key
result. -/
def aggregate (tracks : List Track) (cy : Nat) : List (String × List Record) :=
  mkResult cy (runTracks cy tracks initState).buckets

/-- Decidable form of the per-track survival condition: the track's album
passes the track-count filter (lines 98-100), its release date parses,
its year is in the guarded range (110), and it falls in the 13-month
window (117).  A track contributes a record exactly when it is the first
track of its album name satisfying this predicate. -/
def passes (cy : Nat) (t : Track) : Bool :=
  if t.total_tracks < 3 then false
  else
    match parseReleaseDate t.release_date with
    | none => false
    | some (y, m) =>
      if y ≤ 1900 ∨ cy < y then false
      else if y = cy ∨ (y = cy - 1 ∧ m = 12) then true
      else false

/-- Survival condition with the track-count filter removed: only the
date-parsing and year-window conditions of lines 102-117. -/
def dateOk (cy : Nat) (t : Track) : Bool :=
  match parseReleaseDate t.release_date with
  | none => false
  | some (y, m) =>
    if y ≤ 1900 ∨ cy < y then false
    else if y = cy ∨ (y = cy - 1 ∧ m = 12) then true
    else false

/-- Month key a surviving track is bucketed under (line 118). -/
def trackKey (t : Track) : String :=
  match parseReleaseDate t.release_date with
  | some (y, m) => monthKey m y
  | none => ""

/-- The earliest-processed track with album name `n` that passes all the
filters of lines 98-117; this is the track whose record the aggregation
keeps for that name. -/
def firstHit (cy : Nat) (n : String) (tracks : List Track) : Option Track :=
  tracks.find? (fun t => t.album_name == n && passes cy t)

/-- All records carrying album name `n` anywhere in an aggregation
result. -/
def recordsFor (res : List (String × List Record)) (n : String) : List Record :=
  ((res.map Prod.snd).flatten).filter (fun r => r.name == n)

/-- Bucket of an aggregation result under month key `k` (empty when the
key is absent). -/
def bucketAt (res : List (String × List Record)) (k : String) : List Record :=
  ((res.lookup k).getD [])

/-! ## Dynamically typed layer

Python values and a result type with raising and divergence, used to
model `get_top_albums` (Streamlit, lines 66-142) and `fetch_top_albums`
(Gradio, lines 73-132) including their behaviour on malformed data and
on endpoint failures.  `PRes.raise` models an uncaught Python exception
propagating, `PRes.diverge` models non-termination of the unbounded
`while True` pagination loop (the Lean model is fuelled). -/

/-- Python values as delivered by the JSON API layer. -/
inductive PyVal where
  | str : String → PyVal
  | int : Int → PyVal
  | list : List PyVal → PyVal
  | dict : List (String × PyVal) → PyVal
  | pynone : PyVal

/-- Exceptions distinguished by the handlers of the two variants. -/
inductive PyExc where
  | readTimeout
  | spotifyError
  | keyError : String → PyExc
  | typeError : String → PyExc
deriving DecidableEq

/-- Either a value, an uncaught exception, or divergence. -/
inductive PRes (α : Type) where
  | ok : α → PRes α
  | raise : PyExc → PRes α
  | diverge : PRes α

instance : Monad PRes where
  pure := .ok
  bind := fun x f =>
    match x with
    | .ok a => f a
    | .raise e => .raise e
    | .diverge => .diverge

/-- Subscripting by a string key: `KeyError` on a missing key,
`TypeError` when the value is not a dictionary. -/
def PyVal.getItem : PyVal → String → PRes PyVal
  | .dict kvs, k =>
    match kvs.lookup k with
    | some v => .ok v
    | none => .raise (.keyError k)
  | _, k => .raise (.typeError k)

/-- Python truthiness of the modelled values. -/
def PyVal.truthy : PyVal → Bool
  | .str s => !(s == "")
  | .int i => !(i == 0)
  | .list l => !l.isEmpty
  | .dict kvs => !kvs.isEmpty
  | .pynone => false

/-- Subscripting by `0` (line 94, `album_images[0]`): the head of a
list, the first character of a string; an error otherwise. -/
def PyVal.index0 : PyVal → PRes PyVal
  | .list (x :: _) => .ok x
  | .list [] => .raise (.typeError "index out of range")
  | .str s => if s = "" then .raise (.typeError "index out of range")
              else .ok (.str (s.take 1))
  | _ => .raise (.typeError "not subscriptable")

/-- Python equality as used by set membership on the values that can
reach `seen_albums` (only hashable values do; see `ensureHashable`). -/
def pyEq : PyVal → PyVal → Bool
  | .str a, .str b => a == b
  | .int a, .int b => a == b
  | .pynone, .pynone => true
  | _, _ => false

/-- Membership in the modelled `seen_albums` set. -/
def pyContains (l : List PyVal) (v : PyVal) : Bool :=
  l.any (fun x => pyEq x v)

/-- Set membership hashes its argument first: a list or dictionary value
raises `TypeError: unhashable` (line 119). -/
def ensureHashable : PyVal → PRes Unit
  | .list _ => .raise (.typeError "unhashable")
  | .dict _ => .raise (.typeError "unhashable")
  | _ => .ok ()

/-- Model of line 94: `album_images[0]['url'] if album_images else None`. -/
def pyImageUrl (album_images : PyVal) : PRes PyVal :=
  if album_images.truthy then do
    let first ← album_images.index0
    first.getItem "url"
  else pure .pynone

/-- The list comprehension of line 95: extract `artist['name']` from each
element, in order. -/
def getNamesE : List PyVal → PRes (List PyVal)
  | [] => pure []
  | a :: rest => do
    let n ← a.getItem "name"
    let ns ← getNamesE rest
    pure (n :: ns)

/-- The `", ".join(...)` of line 95: every element must be a string,
otherwise `TypeError`. -/
def strsOf : List PyVal → PRes (List String)
  | [] => pure []
  | v :: rest =>
    match v with
    | .str s => do
      let ss ← strsOf rest
      pure (s :: ss)
    | _ => .raise (.typeError "join expects str")

/-- Model of line 95: comma-joined artist names of an album; raises when
`album['artists']` is missing, not a list, an element has no name, or a
name is not a string. -/
def pyJoinArtists (album : PyVal) : PRes String := do
  let artists ← album.getItem "artists"
  match artists with
  | .list l => do
    let names ← getNamesE l
    let strs ← strsOf names
    pure (String.intercalate ", " strs)
  | _ => .raise (.typeError "not iterable")

/-- The comparison of line 99 (`total_tracks < 3`): defined for integers,
`TypeError` otherwise. -/
def pyLtInt (v : PyVal) (k : Int) : PRes Bool :=
  match v with
  | .int i => pure (decide (i < k))
  | _ => .raise (.typeError "int comparison")

/-- Aggregation state of the dynamically typed loop. -/
structure PyAggState where
  seen : List PyVal
  buckets : String → List PyVal

/-- Initial state (lines 74, 76). -/
def pyInit : PyAggState := ⟨[], fun _ => []⟩

/-- One iteration of the loop of lines 89-125 over an arbitrary Python
value.  Field extraction (90-96) raises on malformed tracks; the
`strptime` calls raise `TypeError` when the release date is not a
string; a `ValueError` from parsing or from the year-range guard of
line 110 is caught by the handler of lines 113-115 and skips the track;
the rest follows `stepTrack`. -/
def processTrackE (cy : Nat) (st : PyAggState) (track : PyVal) : PRes PyAggState := do
  let album ← track.getItem "album"
  let album_name ← album.getItem "name"
  let release_date ← album.getItem "release_date"
  let album_images ← album.getItem "images"
  let album_image_url ← pyImageUrl album_images
  let album_artists ← pyJoinArtists album
  let total_tracks ← album.getItem "total_tracks"
  let lt ← pyLtInt total_tracks 3
  if lt then pure st
  else
    match release_date with
    | .str s =>
      match parseReleaseDate s with
      | none => pure st
      | some (y, m) =>
        if y ≤ 1900 ∨ cy < y then pure st
        else if y = cy ∨ (y = cy - 1 ∧ m = 12) then do
          let _ ← ensureHashable album_name
          if pyContains st.seen album_name then pure st
          else
            pure { seen := album_name :: st.seen
                   buckets := fun k =>
                     if k = monthKey m y then
                       st.buckets k ++
                         [PyVal.dict [("name", album_name),
                                      ("artist", .str album_artists),
                                      ("image_url", album_image_url)]]
                     else st.buckets k }
        else pure st
    | _ => .raise (.typeError "strptime expects str")

/-- The for-loop of lines 89-125 over the accumulated track list; an
uncaught exception in an iteration aborts the loop. -/
def processAll (cy : Nat) : List PyVal → PyAggState → PRes PyAggState
  | [], st => .ok st
  | t :: ts, st =>
    match processTrackE cy st t with
    | .ok st' => processAll cy ts st'
    | .raise e => .raise e
    | .diverge => .diverge

/-- The pagination loop of lines 81-87: fetch a page from the endpoint
oracle at the current offset, extend the accumulator with its `items`
(which must be a list), stop when a page has fewer than 50 items,
otherwise advance the offset by 50.  The returned trace records the
offsets of the issued fetches; `fuel` bounds the number of iterations
(the Python loop is unbounded and diverges on an endpoint that always
returns full pages). -/
def fetchLoop (oracle : Nat → PRes PyVal) :
    Nat → Nat → List PyVal → List Nat → PRes (List PyVal × List Nat)
  | 0, _, _, _ => .diverge
  | fuel + 1, offset, acc, offs =>
    match oracle offset with
    | .raise e => .raise e
    | .diverge => .diverge
    | .ok top_tracks =>
      match top_tracks.getItem "items" with
      | .raise e => .raise e
      | .diverge => .diverge
      | .ok items =>
        match items with
        | .list l =>
          if l.length < 50 then .ok (acc ++ l, offs ++ [offset])
          else fetchLoop oracle fuel (offset + 50) (acc ++ l) (offs ++ [offset])
        | _ => .raise (.typeError "extend expects list")

/-- Body of `get_top_albums` without its outer exception handlers
(lines 72-135): paginate, process every accumulated track, and build the
ordered result; paired with the trace of fetched offsets. -/
def get_top_albums_body (oracle : Nat → PRes PyVal) (cy : Nat) (fuel : Nat) :
    PRes (List (String × List PyVal) × List Nat) :=
  match fetchLoop oracle fuel 0 [] [] with
  | .raise e => .raise e
  | .diverge => .diverge
  | .ok (all_tracks, offsets) =>
    match processAll cy all_tracks pyInit with
    | .raise e => .raise e
    | .diverge => .diverge
    | .ok st => .ok (mkResult cy st.buckets, offsets)

/-- Model of `get_top_albums` (Streamlit, lines 66-142): the body wrapped
in the handlers of lines 137-142, which catch `ReadTimeout` and every
other exception alike and return the empty dictionary `{}`. -/
def get_top_albums (oracle : Nat → PRes PyVal) (cy : Nat) (fuel : Nat) :
    PRes (List (String × List PyVal)) :=
  match get_top_albums_body oracle cy fuel with
  | .ok (d, _) => .ok d
  | .raise .readTimeout => .ok []
  | .raise _ => .ok []
  | .diverge => .diverge

/-- Model of `fetch_top_albums` (Gradio, lines 73-132): a single fetch at
offset 0 with no pagination; only `SpotifyException` from the fetch is
caught (returning `{}`, lines 78-80); the per-track loop and result
construction are the same as in the Streamlit variant.  The trace of
fetched offsets is returned alongside. -/
def fetch_top_albums (oracle : Nat → PRes PyVal) (cy : Nat) :
    PRes (List (String × List PyVal) × List Nat) :=
  match oracle 0 with
  | .raise .spotifyError => .ok ([], [0])
  | .raise e => .raise e
  | .diverge => .diverge
  | .ok top_tracks =>
    match top_tracks.getItem "items" with
    | .raise e => .raise e
    | .diverge => .diverge
    | .ok items =>
      match items with
      | .list l =>
        match processAll cy l pyInit with
        | .raise e => .raise e
        | .diverge => .diverge
        | .ok st => .ok (mkResult cy st.buckets, [0])
      | _ => .raise (.typeError "not iterable")

/-! ## OAuth callback and refresh (lines 236-297, 303-336, 362-380)

The network exchange (a `requests.post` to the token endpoint, or
spotipy's `get_access_token`) is abstracted as an oracle argument; a
result records whether that exchange was attempted at all, so that the
state-mismatch policy is observable. -/

/-- Token-endpoint response as read by the handlers: `access_token` and
`expires_in` are always read, `refresh_token` is optional
(lines 275-277, 323-328). -/
structure TokenResp where
  access_token : String
  refresh_token : Option String
  expires_in : Int
deriving DecidableEq

/-- The `st.session_state` fields touched by the Streamlit auth code. -/
structure SessionState where
  oauth_state : Option String
  access_token : Option String
  refresh_token : Option String
  expires_at : Option Int
  authenticated : Bool
deriving DecidableEq

/-- Result of `handle_auth`: whether a POST to the token endpoint was
issued, the session state afterwards, and the returned token info. -/
structure HandleAuthResult where
  exchange_attempted : Bool
  session : SessionState
  token : Option TokenResp
deriving DecidableEq

/-- Model of `handle_auth` (Streamlit, lines 236-297).  `code`,
`received_state` and `err` are the extracted `code`, `state` and `error`
query parameters (absent parameters are `none`; an absent `state` reads
as `None` via `get('state', [None])[0]`).  When a code is present, the
received state is compared against the stored `oauth_state` and the
request is rejected before any exchange on a mismatch (lines 253-255);
otherwise the code is exchanged (line 270) and on success the token
fields of the session are set (lines 275-278).  On an exchange error the
session is unchanged (lines 286-291).  The `error` and empty branches
(lines 292-297) do nothing. -/
def handle_auth (code : Option String) (received_state : Option String)
    (err : Option String) (sess : SessionState) (now : Int)
    (exchange : String → Except Nat TokenResp) : HandleAuthResult :=
  match code with
  | some c =>
    if received_state ≠ sess.oauth_state then ⟨false, sess, none⟩
    else
      match exchange c with
      | .error _ => ⟨true, sess, none⟩
      | .ok ti =>
        ⟨true,
         { sess with
             access_token := some ti.access_token
             refresh_token := ti.refresh_token
             expires_at := some (now + ti.expires_in)
             authenticated := true },
         some ti⟩
  | none =>
    match err with
    | some _ => ⟨false, sess, none⟩
    | none => ⟨false, sess, none⟩

/-- Assignment `user_tokens[state] = token_info` on the Gradio shared
store. -/
def storeSet (store : List (String × TokenResp)) (k : String) (v : TokenResp) :
    List (String × TokenResp) :=
  if store.any (fun p => p.1 == k) then
    store.map (fun p => if p.1 == k then (k, v) else p)
  else store ++ [(k, v)]

/-- Result of the Gradio `/callback` route. -/
structure CallbackResult where
  exchange_attempted : Bool
  user_tokens : List (String × TokenResp)
  response : String
deriving DecidableEq

/-- Model of the Gradio `/callback` route (lines 362-380): if either
query parameter is missing or empty the request is answered with an
error message; otherwise `get_token(code)` is called - an exchange
attempt - and on success the token is stored under the received `state`
key.  The route performs no comparison of `state` against the stored
expected states (`user_tokens` keys created by `initiate_auth`). -/
def callback (code : Option String) (state : Option String)
    (user_tokens : List (String × TokenResp))
    (get_token : String → Option TokenResp) : CallbackResult :=
  match code, state with
  | some c, some s =>
    if c = "" ∨ s = "" then ⟨false, user_tokens, "Missing code or state parameter."⟩
    else
      match get_token c with
      | some ti => ⟨true, storeSet user_tokens s ti, "redirect:/"⟩
      | none => ⟨true, user_tokens, "Failed to obtain access token."⟩
  | _, _ => ⟨false, user_tokens, "Missing code or state parameter."⟩

/-- Result of `refresh_access_token`: the returned access token (or
`None`) and the session state afterwards. -/
structure RefreshResult where
  ret : Option String
  session : SessionState
deriving DecidableEq

/-- Model of `refresh_access_token` (lines 303-336): on a successful
response, `access_token` and `expires_at` are overwritten
(lines 323-324) and `refresh_token` is overwritten only when the
response contains one (lines 327-328); on any error the handlers of
lines 331-336 return `None` and leave the session unchanged. -/
def refresh_access_token (sess : SessionState) (now : Int)
    (resp : Except Nat TokenResp) : RefreshResult :=
  match resp with
  | .error _ => ⟨none, sess⟩
  | .ok ti =>
    let s1 := { sess with
                  access_token := some ti.access_token
                  expires_at := some (now + ti.expires_in) }
    let s2 :=
      match ti.refresh_token with
      | some r => { s1 with refresh_token := some r }
      | none => s1
    ⟨some ti.access_token, s2⟩

/-! ## Concrete scenarios used by the end-to-end claims -/

/-- Endpoint oracle serving a fixed feed `L` in pages of (at most) 50:
the page at `offset` holds `L[offset : offset + 50]`, as the top-tracks
endpoint does with `limit=50`. -/
def sliceOracle (L : List PyVal) (off : Nat) : PRes PyVal :=
  .ok (.dict [("items", .list ((L.drop off).take 50))])

/-- Two-digit name for the `i`-th scenario track. -/
def name2 (i : Nat) : String :=
  String.mk [Nat.digitChar (i / 10 % 10), Nat.digitChar (i % 10)]

/-- Well-formed scenario track `i`: a distinct album name, a qualifying
current-year (2024) release date, and 10 album tracks. -/
def mkTrack52 (i : Nat) : PyVal :=
  .dict [("album",
    .dict [("name", .str (name2 i)),
           ("release_date", .str "2024-01-15"),
           ("images", .list []),
           ("artists", .list [.dict [("name", .str "Artist")]]),
           ("total_tracks", .int 10)])]

/-- Record produced by scenario track `i`. -/
def mkRecord52 (i : Nat) : PyVal :=
  .dict [("name", .str (name2 i)),
         ("artist", .str "Artist"),
         ("image_url", .pynone)]

/-- A 52-track feed: pagination boundary at 50, so page `0` holds tracks
0-49 and page `50` holds tracks 50-51. -/
def tracks52 : List PyVal := (List.range 52).map mkTrack52

/-- Streamlit aggregation body on the 52-track feed. -/
def s52Body : PRes (List (String × List PyVal) × List Nat) :=
  get_top_albums_body (sliceOracle tracks52) 2024 3

/-- Offsets fetched by the Streamlit aggregator on the 52-track feed. -/
def s52Offsets : List Nat :=
  match s52Body with
  | .ok (_, o) => o
  | _ => []

/-- January bucket produced by the Streamlit aggregator on the 52-track
feed. -/
def s52Jan : List PyVal :=
  match s52Body with
  | .ok (d, _) => (d.lookup (monthKey 1 2024)).getD []
  | _ => []

/-- Gradio aggregation on the same 52-track feed. -/
def g52 : PRes (List (String × List PyVal) × List Nat) :=
  fetch_top_albums (sliceOracle tracks52) 2024

/-- Offsets fetched by the Gradio aggregator on the 52-track feed. -/
def g52Offsets : List Nat :=
  match g52 with
  | .ok (_, o) => o
  | _ => []

/-- January bucket produced by the Gradio aggregator on the 52-track
feed. -/
def g52Jan : List PyVal :=
  match g52 with
  | .ok (d, _) => (d.lookup (monthKey 1 2024)).getD []
  | _ => []

/-- Endpoint oracle whose every fetch times out. -/
def timeoutOracle : Nat → PRes PyVal := fun _ => .raise .readTimeout

/-- Duplicate-album-name scenario: the first-processed track of album
`"X"` fails the track-count filter (2 album tracks) and carries artist
`"A"`; the second passes and carries artist `"B"`. -/
def tDup1 : Track := ⟨"X", "2024-05-01", none, ["A"], 2⟩

/-- Second track of album `"X"`, with different metadata. -/
def tDup2 : Track := ⟨"X", "2024-05-01", some "http://img", ["B"], 10⟩

/-! ## Lemmas about the date parser -/

theorem digVal?_some_lt {c : Char} {v : Nat} (h : digVal? c = some v) : v < 10 := by
  unfold digVal? at h
  split_ifs at h <;> simp_all <;> omega

theorem month2_bounds {c1 c2 : Char} {m : Nat} (h : month2 c1 c2 = some m) :
    1 ≤ m ∧ m ≤ 12 := by
  unfold month2 at h
  split at h
  · split_ifs at h with hb
    simp only [Option.some.injEq] at h
    omega
  · exact Option.noConfusion h

theorem monthCands_bounds {cs : List Char} {p : Nat × List Char}
    (hp : p ∈ monthCands cs) : 1 ≤ p.1 ∧ p.1 ≤ 12 := by
  unfold monthCands at hp
  split at hp
  · rcases List.mem_append.mp hp with hp' | hp'
    · rcases List.mem_append.mp hp' with hp'' | hp''
      · split at hp''
        · split_ifs at hp'' with hb
          · simp only [List.mem_singleton] at hp''
            subst hp''
            simp only
            omega
          · simp at hp''
        · simp at hp''
      · split at hp''
        · split_ifs at hp'' with hb
          · simp only [List.mem_singleton] at hp''
            subst hp''
            simp only
            omega
          · simp at hp''
        · simp at hp''
    · split at hp'
      · split_ifs at hp' with hb
        · simp only [List.mem_singleton] at hp'
          subst hp'
          simp only
          omega
        · simp at hp'
      · simp at hp'
  · split at hp
    · split_ifs at hp with hb
      · simp only [List.mem_singleton] at hp
        subst hp
        simp only
        omega
      · simp at hp
    · simp at hp
  · simp at hp

theorem firstMatch_some {α β : Type} {f : α → Option β} {l : List α} {b : β}
    (h : firstMatch f l = some b) : ∃ x ∈ l, f x = some b := by
  induction l with
  | nil => simp [firstMatch] at h
  | cons x xs ih =>
    unfold firstMatch at h
    split at h
    · exact ⟨x, List.mem_cons_self x xs, by simp_all⟩
    · rcases ih h with ⟨x', hx', hfx'⟩
      exact ⟨x', List.mem_cons_of_mem x hx', hfx'⟩

theorem matchYMD_month_bounds {cs : List Char} {y m d : Nat} {rest : List Char}
    (h : matchYMD cs = some (y, m, d, rest)) : 1 ≤ m ∧ m ≤ 12 := by
  unfold matchYMD at h
  split at h
  · split at h
    · exact Option.noConfusion h
    · rcases firstMatch_some h with ⟨mc, hmc, hf⟩
      split at hf
      · rcases Option.map_eq_some'.mp hf with ⟨dc, _, heq⟩
        have hm : m = mc.1 := by
          simp only [Prod.mk.injEq] at heq
          exact heq.2.1.symm
        rw [hm]
        exact monthCands_bounds hmc
      · exact Option.noConfusion hf
  · exact Option.noConfusion h

theorem parseReleaseDate_bounds {s : String} {y m : Nat}
    (h : parseReleaseDate s = some (y, m)) : 1 ≤ y ∧ 1 ≤ m ∧ m ≤ 12 := by
  unfold parseReleaseDate at h
  split_ifs at h with h4 h7
  · split at h
    · split_ifs at h with hy
      simp only [Option.some.injEq, Prod.mk.injEq] at h
      omega
    · exact Option.noConfusion h
  · split at h
    · split at h
      · split_ifs at h with hy
        simp only [Option.some.injEq, Prod.mk.injEq] at h
        rename_i y' m' _ _ hm2
        have := month2_bounds hm2
        omega
      · exact Option.noConfusion h
    · exact Option.noConfusion h
  · split at h
    · split_ifs at h with hv
      simp only [Option.some.injEq, Prod.mk.injEq] at h
      rename_i y' m' d' leftover hmatch
      have := matchYMD_month_bounds hmatch
      omega
    · exact Option.noConfusion h

theorem parseReleaseDate_len4_month {s : String} {y m : Nat}
    (h4 : s.length = 4) (h : parseReleaseDate s = some (y, m)) : m = 1 := by
  unfold parseReleaseDate at h
  rw [if_pos h4] at h
  split at h
  · split_ifs at h with hy
    simp only [Option.some.injEq, Prod.mk.injEq] at h
    omega
  · exact Option.noConfusion h

/-! ## Lemmas about month keys and the 13-month frame -/

theorem digitChar_inj_lt :
    ∀ a : Nat, a < 10 → ∀ b : Nat, b < 10 → Nat.digitChar a = Nat.digitChar b → a = b := by
  decide

theorem monthKey_eq_iff {m m' y y' : Nat} (hm : m < 100) (hm' : m' < 100) :
    monthKey m y = monthKey m' y' ↔ (m = m' ∧ y % 100 = y' % 100) := by
  constructor
  · intro h
    unfold monthKey at h
    injection h with hd
    simp only [List.cons.injEq, and_true] at hd
    obtain ⟨h1, h2, _, h3, h4⟩ := hd
    have e1 := digitChar_inj_lt _ (Nat.mod_lt _ (by omega)) _ (Nat.mod_lt _ (by omega)) h1
    have e2 := digitChar_inj_lt _ (Nat.mod_lt _ (by omega)) _ (Nat.mod_lt _ (by omega)) h2
    have e3 := digitChar_inj_lt _ (by omega) _ (by omega) h3
    have e4 := digitChar_inj_lt _ (Nat.mod_lt _ (by omega)) _ (Nat.mod_lt _ (by omega)) h4
    omega
  · intro ⟨h1, h2⟩
    unfold monthKey
    rw [h1, h2]

theorem monthsList_length (cy : Nat) : (monthsList cy).length = 13 := by
  simp [monthsList]

theorem mem_monthsList_of_month {cy m : Nat} (h1 : 1 ≤ m) (h2 : m ≤ 12) :
    monthKey m cy ∈ monthsList cy := by
  unfold monthsList
  refine List.mem_cons_of_mem _ (List.mem_map.mpr ⟨m - 1, List.mem_range.mpr (by omega), ?_⟩)
  congr 1
  omega

theorem monthsList_nodup (cy : Nat) (hcy : 0 < cy) : (monthsList cy).Nodup := by
  unfold monthsList
  refine List.Nodup.cons ?_ ?_
  · intro hmem
    rcases List.mem_map.mp hmem with ⟨i, hi, heq⟩
    have hi' := List.mem_range.mp hi
    have := (monthKey_eq_iff (by omega) (by omega)).mp heq
    omega
  · refine List.Nodup.map_on ?_ (List.nodup_range 12)
    intro x hx y hy hxy
    have hx' := List.mem_range.mp hx
    have hy' := List.mem_range.mp hy
    have := (monthKey_eq_iff (by omega) (by omega)).mp hxy
    omega

/-! ## Lemmas about the typed per-track loop -/

theorem passes_iff (cy : Nat) (t : Track) :
    passes cy t = true ↔
      (¬ t.total_tracks < 3 ∧ ∃ y m, parseReleaseDate t.release_date = some (y, m) ∧
        ¬ (y ≤ 1900 ∨ cy < y) ∧ (y = cy ∨ (y = cy - 1 ∧ m = 12))) := by
  unfold passes
  by_cases h3 : t.total_tracks < 3
  · simp [h3]
  · rcases hp : parseReleaseDate t.release_date with _ | ⟨y, m⟩
    · simp [h3, hp]
    · by_cases hr : y ≤ 1900 ∨ cy < y
      · simp [h3, hp, hr]
        omega
      · by_cases hw : y = cy ∨ (y = cy - 1 ∧ m = 12)
        · simp [h3, hp, hr, hw]
          refine ⟨y, m, ⟨rfl, rfl⟩, by omega, ?_⟩
          exact hw
        · simp [h3, hp, hr, hw]
          omega

theorem stepTrack_skip {cy : Nat} {st : AggState} {t : Track}
    (h : passes cy t = false) : stepTrack cy st t = st := by
  unfold stepTrack
  by_cases h3 : t.total_tracks < 3
  · simp [h3]
  · rcases hp : parseReleaseDate t.release_date with _ | ⟨y, m⟩
    · simp [hp]
    · by_cases hr : y ≤ 1900 ∨ cy < y
      · simp [h3, hp, hr]
      · by_cases hw : y = cy ∨ (y = cy - 1 ∧ m = 12)
        · exfalso
          have : passes cy t = true := (passes_iff cy t).mpr ⟨h3, y, m, hp, hr, hw⟩
          simp [this] at h
        · simp [h3, hp, hr, hw]

theorem stepTrack_dup {cy : Nat} {st : AggState} {t : Track} {y m : Nat}
    (hp : parseReleaseDate t.release_date = some (y, m))
    (hs : t.album_name ∈ st.seen) : stepTrack cy st t = st := by
  unfold stepTrack
  by_cases h3 : t.total_tracks < 3
  · simp [h3]
  · rw [if_neg h3, hp]
    by_cases hr : y ≤ 1900 ∨ cy < y
    · simp [hr]
    · by_cases hw : y = cy ∨ (y = cy - 1 ∧ m = 12)
      · simp [hr, hw, hs]
      · simp [hr, hw]

theorem stepTrack_add {cy : Nat} {st : AggState} {t : Track} {y m : Nat}
    (h3 : ¬ t.total_tracks < 3)
    (hp : parseReleaseDate t.release_date = some (y, m))
    (hr : ¬ (y ≤ 1900 ∨ cy < y))
    (hw : y = cy ∨ (y = cy - 1 ∧ m = 12))
    (hs : t.album_name ∉ st.seen) :
    stepTrack cy st t =
      { seen := t.album_name :: st.seen
        buckets := fun k =>
          if k = trackKey t then st.buckets k ++ [recordOf t]
          else st.buckets k } := by
  unfold stepTrack
  simp only [if_neg h3, hp, if_neg hr, if_pos hw, if_neg hs]
  have hk : trackKey t = monthKey m y := by
    unfold trackKey
    rw [hp]
  rw [hk]

theorem runTracks_spec (cy : Nat) (tracks : List Track) :
    ∀ (st : AggState) (n k : String),
      ((n ∈ (runTracks cy tracks st).seen) ↔
        (n ∈ st.seen ∨ (firstHit cy n tracks).isSome = true))
      ∧ ((runTracks cy tracks st).buckets k).filter (fun r => r.name == n)
          = (st.buckets k).filter (fun r => r.name == n) ++
            (if n ∈ st.seen then [] else
              match firstHit cy n tracks with
              | some t => if k = trackKey t then [recordOf t] else []
              | none => []) := by
  induction tracks with
  | nil =>
    intro st n k
    constructor
    · simp [runTracks, firstHit]
    · simp [runTracks, firstHit]
  | cons t ts ih =>
    intro st n k
    have hrun : runTracks cy (t :: ts) st = runTracks cy ts (stepTrack cy st t) := by
      simp [runTracks]
    by_cases hpass : passes cy t = true
    · rcases (passes_iff cy t).mp hpass with ⟨h3, y, m, hp, hr, hw⟩
      by_cases hname : t.album_name = n
      · subst hname
        have hfh : firstHit cy t.album_name (t :: ts) = some t := by
          unfold firstHit
          rw [List.find?_cons_of_pos]
          simp [hpass]
        by_cases hseen : t.album_name ∈ st.seen
        · have hstep := @stepTrack_dup cy _ _ _ _ hp hseen
          rw [hrun, hstep, hfh]
          obtain ⟨ihs, ihb⟩ := ih st t.album_name k
          constructor
          · rw [ihs]
            simp [hseen]
          · rw [ihb]
            simp [hseen]
        · have hstep := stepTrack_add h3 hp hr hw hseen
          rw [hrun, hstep, hfh]
          obtain ⟨ihs, ihb⟩ :=
            ih ⟨t.album_name :: st.seen, fun k =>
              if k = trackKey t then st.buckets k ++ [recordOf t]
              else st.buckets k⟩ t.album_name k
          constructor
          · rw [ihs]
            simp
          · rw [ihb]
            simp only [List.mem_cons, true_or, if_true, if_pos (List.mem_cons_self t.album_name st.seen)]
            rw [if_neg hseen]
            by_cases hk : k = trackKey t
            · rw [if_pos hk, if_pos hk, List.filter_append]
              simp [recordOf]
            · rw [if_neg hk, if_neg hk]
      · have hne : ¬ (n = t.album_name) := fun h => hname h.symm
        have hfh : firstHit cy n (t :: ts) = firstHit cy n ts := by
          unfold firstHit
          rw [List.find?_cons_of_neg]
          simp [hname]
        by_cases hseen : t.album_name ∈ st.seen
        · rw [hrun, @stepTrack_dup cy _ _ _ _ hp hseen, hfh]
          exact ih st n k
        · have hstep := stepTrack_add h3 hp hr hw hseen
          rw [hrun, hstep, hfh]
          obtain ⟨ihs, ihb⟩ :=
            ih ⟨t.album_name :: st.seen, fun k =>
              if k = trackKey t then st.buckets k ++ [recordOf t]
              else st.buckets k⟩ n k
          constructor
          · rw [ihs]
            simp [hne]
          · rw [ihb]
            have hmem : (n ∈ t.album_name :: st.seen) ↔ n ∈ st.seen := by
              simp [hne]
            have hfilt :
                ((if k = trackKey t then st.buckets k ++ [recordOf t]
                  else st.buckets k).filter (fun r => r.name == n))
                = (st.buckets k).filter (fun r => r.name == n) := by
              by_cases hk : k = trackKey t
              · rw [if_pos hk, List.filter_append]
                simp [recordOf, hne]
                exact fun h => hne h.symm
              · rw [if_neg hk]
            simp only at hfilt ⊢
            rw [hfilt]
            by_cases hn : n ∈ st.seen
            · rw [if_pos (hmem.mpr hn), if_pos hn]
            · rw [if_neg (fun h => hn (hmem.mp h)), if_neg hn]
    · have hpass' : passes cy t = false := by
        simpa using hpass
      have hstep := @stepTrack_skip cy st _ hpass'
      have hfh : firstHit cy n (t :: ts) = firstHit cy n ts := by
        unfold firstHit
        rw [List.find?_cons_of_neg]
        simp [hpass']
      rw [hrun, hstep, hfh]
      exact ih st n k

theorem filter_flatten {α : Type} (p : α → Bool) (l : List (List α)) :
    l.flatten.filter p = (l.map (fun x => x.filter p)).flatten := by
  induction l with
  | nil => simp
  | cons x xs ih => simp [List.filter_append, ih]

theorem flatten_map_nil {α β : Type} (l : List α) :
    (l.map (fun _ => ([] : List β))).flatten = [] := by
  induction l <;> simp_all

theorem flatten_ite_nil {β : Type} {ms : List String} {a : String} (r : β)
    (h : a ∉ ms) :
    (ms.map (fun mo => if mo = a then [r] else [])).flatten = [] := by
  induction ms with
  | nil => simp
  | cons x xs ih =>
    have hx : ¬ (x = a) := fun he => h (List.mem_cons.mpr (Or.inl he.symm))
    simp only [List.map_cons, List.flatten_cons, if_neg hx, List.nil_append]
    exact ih (fun hm => h (List.mem_cons_of_mem x hm))

theorem flatten_ite_single {β : Type} (ms : List String) (a : String) (r : β)
    (hnd : ms.Nodup) (hmem : a ∈ ms) :
    (ms.map (fun mo => if mo = a then [r] else [])).flatten = [r] := by
  induction ms with
  | nil => simp at hmem
  | cons x xs ih =>
    obtain ⟨hnotin, hnd'⟩ := List.nodup_cons.mp hnd
    rcases List.mem_cons.mp hmem with h | h
    · have hax : a ∉ xs := by rw [h]; exact hnotin
      simp only [List.map_cons, List.flatten_cons, if_pos h.symm]
      rw [flatten_ite_nil r hax]
      simp
    · have hx : ¬ (x = a) := fun he => hnotin (by rw [he]; exact h)
      simp only [List.map_cons, List.flatten_cons, if_neg hx, List.nil_append]
      exact ih hnd' h

theorem lookup_map_pair {R : Type} (b : String → List R) {ms : List String}
    {k : String} (hk : k ∈ ms) :
    (ms.map (fun mo => (mo, b mo))).lookup k = some (b k) := by
  induction ms with
  | nil => simp at hk
  | cons x xs ih =>
    rcases List.mem_cons.mp hk with h | h
    · subst h
      simp [List.lookup]
    · by_cases hx : k = x
      · subst hx
        simp [List.lookup]
      · simp only [List.map_cons, List.lookup]
        have hbeq : (k == x) = false := by simpa using hx
        rw [hbeq]
        exact ih h

theorem runTracks_init_filter (cy : Nat) (tracks : List Track) (n k : String) :
    ((runTracks cy tracks initState).buckets k).filter (fun r => r.name == n) =
      match firstHit cy n tracks with
      | some t => if k = trackKey t then [recordOf t] else []
      | none => [] := by
  have h := (runTracks_spec cy tracks initState n k).2
  simpa [initState] using h

theorem recordsFor_aggregate (tracks : List Track) (cy : Nat) (n : String) :
    recordsFor (aggregate tracks cy) n =
      match firstHit cy n tracks with
      | some t => [recordOf t]
      | none => [] := by
  unfold recordsFor aggregate mkResult
  rw [List.map_map]
  have hcomp : (Prod.snd ∘ fun mo => (mo, (runTracks cy tracks initState).buckets mo)) =
      fun mo => (runTracks cy tracks initState).buckets mo := rfl
  rw [hcomp, filter_flatten, List.map_map]
  have hc : ∀ k, ((runTracks cy tracks initState).buckets k).filter (fun r => r.name == n) =
      (match firstHit cy n tracks with
       | some t => if k = trackKey t then [recordOf t] else []
       | none => []) := by
    intro k
    have h := (runTracks_spec cy tracks initState n k).2
    simpa [initState] using h
  have hfun : ((fun x => x.filter (fun r => r.name == n)) ∘
        fun mo => (runTracks cy tracks initState).buckets mo)
      = fun mo => (match firstHit cy n tracks with
                   | some t => if mo = trackKey t then [recordOf t] else []
                   | none => []) := by
    funext mo
    exact hc mo
  rw [hfun]
  cases hfh : firstHit cy n tracks with
  | none => exact flatten_map_nil _
  | some t =>
    have hpt : passes cy t = true := by
      unfold firstHit at hfh
      have := List.find?_some hfh
      exact (Bool.and_eq_true _ _ |>.mp this).2
    rcases (passes_iff cy t).mp hpt with ⟨h3, y, m, hp, hr, hw⟩
    have hb := parseReleaseDate_bounds hp
    have hcy : 0 < cy := by omega
    have hkmem : trackKey t ∈ monthsList cy := by
      unfold trackKey
      rw [hp]
      rcases hw with hcur | ⟨hprev, hm12⟩
      · subst hcur
        exact mem_monthsList_of_month hb.2.1 hb.2.2
      · rw [hprev, hm12]
        exact List.mem_cons_self _ _
    exact flatten_ite_single (monthsList cy) (trackKey t) (recordOf t)
      (monthsList_nodup cy hcy) hkmem

/-! ## Lemmas about the dynamically typed pipeline -/

theorem mkResult_keys {R : Type} (cy : Nat) (b : String → List R) :
    (mkResult cy b).map Prod.fst = monthsList cy := by
  unfold mkResult
  rw [List.map_map]
  have h : (Prod.fst ∘ fun mo => (mo, b mo)) = id := rfl
  rw [h, List.map_id]

theorem get_top_albums_body_ok {oracle : Nat → PRes PyVal} {cy fuel : Nat}
    {d : List (String × List PyVal)} {offs : List Nat}
    (h : get_top_albums_body oracle cy fuel = .ok (d, offs)) :
    ∃ st : PyAggState, d = mkResult cy st.buckets := by
  unfold get_top_albums_body at h
  split at h
  · exact PRes.noConfusion h
  · exact PRes.noConfusion h
  · split at h
    · exact PRes.noConfusion h
    · exact PRes.noConfusion h
    · rename_i st _
      simp only [PRes.ok.injEq, Prod.mk.injEq] at h
      exact ⟨st, h.1.symm⟩

theorem fetchLoop_slice (L : List PyVal) :
    ∀ (fuel off : Nat) (acc : List PyVal) (offs : List Nat),
      (L.length - off) / 50 < fuel →
      fetchLoop (sliceOracle L) fuel off acc offs =
        .ok (acc ++ L.drop off,
             offs ++ (List.range ((L.length - off) / 50 + 1)).map (fun i => off + 50 * i)) := by
  intro fuel
  induction fuel with
  | zero =>
    intro off acc offs h
    exact absurd h (Nat.not_lt_zero _)
  | succ f ih =>
    intro off acc offs h
    have hstep : fetchLoop (sliceOracle L) (f + 1) off acc offs =
        (if ((L.drop off).take 50).length < 50
         then .ok (acc ++ (L.drop off).take 50, offs ++ [off])
         else fetchLoop (sliceOracle L) f (off + 50)
                (acc ++ (L.drop off).take 50) (offs ++ [off])) := rfl
    rw [hstep]
    have hlen : ((L.drop off).take 50).length = min 50 (L.length - off) := by
      simp [List.length_take, List.length_drop]
    by_cases hshort : L.length - off < 50
    · have hl : ((L.drop off).take 50).length < 50 := by omega
      rw [if_pos hl]
      have htake : (L.drop off).take 50 = L.drop off := by
        apply List.take_of_length_le
        rw [List.length_drop]
        omega
      have hdiv : (L.length - off) / 50 = 0 := Nat.div_eq_of_lt hshort
      rw [htake, hdiv]
      simp [List.range_succ]
    · have hl : ¬ ((L.drop off).take 50).length < 50 := by omega
      rw [if_neg hl]
      have hrec : (L.length - (off + 50)) / 50 < f := by omega
      rw [ih (off + 50) (acc ++ (L.drop off).take 50) (offs ++ [off]) hrec]
      have htracks : (acc ++ (L.drop off).take 50) ++ L.drop (off + 50) = acc ++ L.drop off := by
        rw [List.append_assoc]
        congr 1
        have hdd : L.drop (off + 50) = (L.drop off).drop 50 := by
          rw [List.drop_drop]
          try congr 1
          try omega
        rw [hdd]
        exact List.take_append_drop 50 (L.drop off)
      have hcount : (L.length - off) / 50 = (L.length - (off + 50)) / 50 + 1 := by
        omega
      have hshift : ∀ (g c : Nat),
          (List.range (c + 1)).map (fun i => g + 50 * i)
            = g :: (List.range c).map (fun i => g + 50 + 50 * i) := by
        intro g c
        rw [List.range_succ_eq_map, List.map_cons, List.map_map]
        refine List.cons_eq_cons.mpr ⟨by simp, ?_⟩
        apply List.map_congr_left
        intro a _
        simp [Function.comp]
        omega
      have hoffs : (offs ++ [off]) ++
            (List.range ((L.length - (off + 50)) / 50 + 1)).map (fun i => off + 50 + 50 * i)
          = offs ++ (List.range ((L.length - off) / 50 + 1)).map (fun i => off + 50 * i) := by
        rw [hcount, hshift off ((L.length - (off + 50)) / 50 + 1), List.append_assoc,
          List.singleton_append]
      rw [htracks, hoffs]

/-! ## Claim theorems -/

/-- C1: for every access token (the endpoint oracle) and every sequence
of track pages, the aggregator's successful result is a mapping with
exactly 13 keys in the fixed order December of the previous year then
January through December of the current year (formatted `"MM/YY"`), each
key mapped to a possibly empty sequence, regardless of how many albums
qualify. -/
theorem claim1_thirteen_keys (oracle : Nat → PRes PyVal) (cy fuel : Nat)
    (d : List (String × List PyVal)) (offs : List Nat) (hcy : 0 < cy)
    (h : get_top_albums_body oracle cy fuel = PRes.ok (d, offs)) :
    d.map Prod.fst = monthsList cy ∧ (d.map Prod.fst).length = 13 ∧
      (d.map Prod.fst).Nodup := by
  obtain ⟨st, rfl⟩ := get_top_albums_body_ok h
  rw [mkResult_keys]
  exact ⟨rfl, monthsList_length cy, monthsList_nodup cy hcy⟩

/-- Witness for C1 at the empty feed and current year 2024. -/
theorem claim1_thirteen_keys_witness :
    (mkResult 2024 (fun _ => ([] : List PyVal))).map Prod.fst = monthsList 2024 ∧
      ((mkResult 2024 (fun _ => ([] : List PyVal))).map Prod.fst).length = 13 ∧
      ((mkResult 2024 (fun _ => ([] : List PyVal))).map Prod.fst).Nodup :=
  claim1_thirteen_keys (sliceOracle []) 2024 1 _ [0] (by decide) (by rfl)

/-- Streamlit `handle_auth` does satisfy the state-mismatch policy: on a
mismatch the session is unchanged and no exchange is attempted
(lines 253-255). -/
theorem handle_auth_rejects_on_state_mismatch (code received_state err : Option String)
    (sess : SessionState) (now : Int) (exchange : String → Except Nat TokenResp)
    (h : received_state ≠ sess.oauth_state) :
    handle_auth code received_state err sess now exchange = ⟨false, sess, none⟩ := by
  unfold handle_auth
  cases code with
  | some c => simp [h]
  | none => cases err <;> rfl

/-- Closed instance of the preceding theorem. -/
theorem handle_auth_rejects_on_state_mismatch_inst :
    handle_auth (some "code") (some "evil") none
        ⟨some "expected", none, none, none, false⟩ 0
        (fun _ => Except.ok ⟨"tok", none, 3600⟩)
      = ⟨false, ⟨some "expected", none, none, none, false⟩, none⟩ :=
  handle_auth_rejects_on_state_mismatch _ _ _ _ _ _ (by decide)

/-- C2 (code bug): the Gradio `/callback` route performs the token
exchange, and stores the token under the received state key, even when
the received state matches no stored/expected state - contradicting the
state-mismatch policy that `handle_auth` (Streamlit) and the unused
Gradio `handle_callback` implement. -/
theorem claim2_gradio_exchanges_on_bad_state :
    (callback (some "authcode") (some "evil")
        [("expected", ⟨"tok", none, 3600⟩)]
        (fun _ => some ⟨"tok2", some "r2", 3600⟩)).exchange_attempted = true
    ∧ ("evil" ≠ "expected")
    ∧ (callback (some "authcode") (some "evil")
        [("expected", ⟨"tok", none, 3600⟩)]
        (fun _ => some ⟨"tok2", some "r2", 3600⟩)).user_tokens.lookup "evil"
        = some ⟨"tok2", some "r2", 3600⟩ :=
  ⟨rfl, by decide, rfl⟩

/-- C3 counterexample: on a timeout the Streamlit aggregator returns the
empty dictionary, which has 0 keys, not a 13-key mapping. -/
theorem claim3_counterexample :
    get_top_albums timeoutOracle 2024 1 = PRes.ok [] ∧
      ([] : List (String × List PyVal)).length ≠ 13 :=
  ⟨rfl, by decide⟩

/-- C3 (amended): on any failure of the aggregation (timeout or any
other exception raised by the body) `get_top_albums` returns the empty
mapping with no keys; and its result is all-or-nothing - either the
empty mapping or the full 13-key frame, never a partial mapping. -/
theorem claim3_fail_closed (oracle : Nat → PRes PyVal) (cy fuel : Nat) :
    (∀ e, get_top_albums_body oracle cy fuel = PRes.raise e →
        get_top_albums oracle cy fuel = PRes.ok []) ∧
    (∀ d, get_top_albums oracle cy fuel = PRes.ok d →
        d = [] ∨ d.map Prod.fst = monthsList cy) := by
  constructor
  · intro e he
    unfold get_top_albums
    rw [he]
    cases e <;> rfl
  · intro d hd
    unfold get_top_albums at hd
    cases hb : get_top_albums_body oracle cy fuel with
    | ok p =>
      rw [hb] at hd
      obtain ⟨d0, offs⟩ := p
      simp only [PRes.ok.injEq] at hd
      obtain ⟨st, hst⟩ := get_top_albums_body_ok hb
      right
      rw [← hd, hst, mkResult_keys]
    | raise e =>
      rw [hb] at hd
      cases e <;> (simp only [PRes.ok.injEq] at hd; exact Or.inl hd.symm)
    | diverge =>
      rw [hb] at hd
      exact PRes.noConfusion hd

/-- Witness for C3: the timeout oracle and the empty feed. -/
theorem claim3_fail_closed_witness :
    get_top_albums timeoutOracle 2024 1 = PRes.ok [] ∧
      (mkResult 2024 (fun _ => ([] : List PyVal)) = [] ∨
        (mkResult 2024 (fun _ => ([] : List PyVal))).map Prod.fst = monthsList 2024) :=
  ⟨(claim3_fail_closed timeoutOracle 2024 1).1 PyExc.readTimeout rfl,
   (claim3_fail_closed (sliceOracle []) 2024 1).2 _ (by rfl)⟩

/-- C9: for every successful refresh, the stored access token and expiry
are replaced with the provider's new values, and the stored refresh
token is replaced exactly when the response contains a `refresh_token`
field, otherwise retained. -/
theorem claim9_refresh_updates (sess : SessionState) (now : Int) (ti : TokenResp) :
    refresh_access_token sess now (Except.ok ti) =
      ⟨some ti.access_token,
       { sess with
           access_token := some ti.access_token
           expires_at := some (now + ti.expires_in)
           refresh_token :=
             match ti.refresh_token with
             | some r => some r
             | none => sess.refresh_token }⟩ := by
  unfold refresh_access_token
  rcases ti with ⟨a, rt, e⟩
  cases rt <;> rfl

/-- C10: `get_top_albums` (Streamlit) is total with respect to
exceptions: for every behaviour of the top-tracks endpoint, including
raised exceptions and malformed track objects, it never propagates an
exception (never a `PRes.raise`) and returns a dictionary whenever the
unbounded pagination loop terminates. -/
theorem claim10_no_exception (oracle : Nat → PRes PyVal) (cy fuel : Nat) :
    get_top_albums oracle cy fuel = PRes.diverge ∨
      ∃ d, get_top_albums oracle cy fuel = PRes.ok d := by
  unfold get_top_albums
  cases h : get_top_albums_body oracle cy fuel with
  | ok p =>
    obtain ⟨d, offs⟩ := p
    exact Or.inr ⟨d, rfl⟩
  | raise e =>
    cases e <;> exact Or.inr ⟨[], rfl⟩
  | diverge =>
    exact Or.inl rfl

/-- C4 counterexample: on the 52-track feed the Gradio aggregator
`fetch_top_albums` issues a single fetch (offset 0 only, not the claimed
two fetches at offsets 0 and 50) and its buckets hold only the 50 tracks
of the first page, missing the two tracks of the second page that the
Streamlit aggregator does include. -/
theorem claim4_counterexample :
    g52Offsets = [0] ∧ g52Offsets ≠ [0, 50] ∧
      g52Jan = (List.range 50).map mkRecord52 ∧
      g52Jan.length = 50 ∧ s52Jan.length = 52 :=
  ⟨rfl, by decide, rfl, rfl, rfl⟩

/-- C4 (amended, Streamlit variant): `get_top_albums` pages through the
endpoint sequentially at offsets 0, 50, 100, ... until a page returns
fewer than 50 items, accumulating every track of the feed; in particular
on the 52-track feed it issues exactly 2 fetches (offsets 0 and 50) and
its January bucket holds the records of all 52 tracks, from both
pages. -/
theorem claim4_streamlit_pagination :
    (∀ (L : List PyVal) (fuel : Nat), L.length / 50 < fuel →
      fetchLoop (sliceOracle L) fuel 0 [] [] =
        PRes.ok (L, (List.range (L.length / 50 + 1)).map (fun i => 50 * i))) ∧
    s52Offsets = [0, 50] ∧
    s52Jan = (List.range 52).map mkRecord52 := by
  refine ⟨?_, rfl, rfl⟩
  intro L fuel hf
  have h := fetchLoop_slice L fuel 0 [] [] (by simpa using hf)
  simpa using h

/-- Witness for C4 at the empty feed. -/
theorem claim4_streamlit_pagination_witness :
    fetchLoop (sliceOracle []) 1 0 [] [] = PRes.ok ([], [0]) := by
  have h := claim4_streamlit_pagination.1 [] 1 (by decide)
  simpa using h

/-- C5 counterexample: two tracks of album `"X"`; the earliest-processed
one (artist `"A"`, 2 album tracks) fails the track-count filter, so the
record kept for `"X"` is derived from the second track (artist `"B"`),
not from the earliest-processed track with that album name. -/
theorem claim5_counterexample :
    recordsFor (aggregate [tDup1, tDup2] 2024) "X"
        = [{ name := "X", artist := "B", image_url := some "http://img" }] ∧
      ({ name := "X", artist := "B", image_url := some "http://img" } : Record)
        ≠ { name := "X", artist := "A", image_url := none } ∧
      tDup1.album_name = "X" ∧ tDup2.album_name = "X" ∧
      tDup1.artist_names = ["A"] :=
  ⟨by decide, by decide, rfl, rfl, rfl⟩

/-- C5 (amended): for every track list and album name, the aggregation
result holds at most one record with that name: exactly the record of
the earliest-processed track with that name that passes the
track-count, date-parsing and year-window filters, and no record when no
such track exists; all later tracks with the same name are dropped even
if their metadata differs. -/
theorem claim5_dedup_first_qualifying (tracks : List Track) (cy : Nat) (n : String) :
    recordsFor (aggregate tracks cy) n =
      match firstHit cy n tracks with
      | some t => [recordOf t]
      | none => [] :=
  recordsFor_aggregate tracks cy n

/-- C6: a record appears in a bucket of the aggregation result only if
it derives from a track whose parsed release year `y` satisfies
`1900 < y ≤ cy` and `y = cy`, or `y = cy - 1` with release month
December; moreover a track whose parsed year is out of the guarded range
(such as 1899, or beyond the current year) is skipped with processing
continuing (the loop state is unchanged). -/
theorem claim6_year_window :
    (∀ (tracks : List Track) (cy : Nat) (k : String) (l : List Record) (r : Record),
      (k, l) ∈ aggregate tracks cy → r ∈ l →
      ∃ t y m, t ∈ tracks ∧ r = recordOf t ∧
        parseReleaseDate t.release_date = some (y, m) ∧
        1900 < y ∧ y ≤ cy ∧ (y = cy ∨ (y = cy - 1 ∧ m = 12))) ∧
    (∀ (cy : Nat) (st : AggState) (t : Track) (y m : Nat),
      parseReleaseDate t.release_date = some (y, m) →
      (y ≤ 1900 ∨ cy < y) → stepTrack cy st t = st) := by
  constructor
  · intro tracks cy k l r hkl hr
    unfold aggregate mkResult at hkl
    rcases List.mem_map.mp hkl with ⟨mo, _, heq⟩
    simp only [Prod.mk.injEq] at heq
    obtain ⟨hk, hl⟩ := heq
    subst hk
    subst hl
    have hrf : r ∈ ((runTracks cy tracks initState).buckets mo).filter
        (fun x => x.name == r.name) :=
      List.mem_filter.mpr ⟨hr, by simp⟩
    rw [runTracks_init_filter cy tracks r.name mo] at hrf
    cases hfh : firstHit cy r.name tracks with
    | none =>
      simp only [hfh] at hrf
      simp at hrf
    | some t =>
      simp only [hfh] at hrf
      by_cases hk2 : mo = trackKey t
      · rw [if_pos hk2] at hrf
        simp only [List.mem_singleton] at hrf
        have hfh' : tracks.find? (fun u => u.album_name == r.name && passes cy u)
            = some t := hfh
        have hps := List.find?_some hfh'
        simp only [Bool.and_eq_true] at hps
        have hmem : t ∈ tracks := List.mem_of_find?_eq_some hfh'
        rcases (passes_iff cy t).mp hps.2 with ⟨h3, y, m, hp, hr2, hw⟩
        exact ⟨t, y, m, hmem, hrf, hp, by omega, by omega, hw⟩
      · rw [if_neg hk2] at hrf
        simp at hrf
  · intro cy st t y m hp hyr
    unfold stepTrack
    by_cases h3 : t.total_tracks < 3
    · simp [h3]
    · simp [h3, hp, hyr]

/-- Witness for C6 at a one-track list with a qualifying May 2024
release. -/
theorem claim6_year_window_witness :
    ∃ t y m, t ∈ [(⟨"W", "2024-05-01", none, ["A"], 5⟩ : Track)] ∧
      ({ name := "W", artist := "A", image_url := none } : Record) = recordOf t ∧
      parseReleaseDate t.release_date = some (y, m) ∧
      1900 < y ∧ y ≤ 2024 ∧ (y = 2024 ∨ (y = 2024 - 1 ∧ m = 12)) :=
  claim6_year_window.1 [⟨"W", "2024-05-01", none, ["A"], 5⟩] 2024 (monthKey 5 2024)
    [recordOf ⟨"W", "2024-05-01", none, ["A"], 5⟩]
    ⟨"W", "A", none⟩ (by decide) (by decide)

/-- C7: a track whose album has fewer than 3 tracks contributes nothing
to the loop state; an album name all of whose tracks have fewer than 3
tracks never appears in the result; and at `total_tracks = 3` the
track-count filter never excludes a track - its survival reduces to the
date-parsing and year-window conditions alone, and the first such
qualifying track of its name is recorded. -/
theorem claim7_track_count_boundary :
    (∀ (cy : Nat) (st : AggState) (t : Track), t.total_tracks < 3 →
      stepTrack cy st t = st) ∧
    (∀ (tracks : List Track) (cy : Nat) (n : String),
      (∀ t, t ∈ tracks → t.album_name = n → t.total_tracks < 3) →
      recordsFor (aggregate tracks cy) n = []) ∧
    (∀ (cy : Nat) (t : Track), t.total_tracks = 3 → passes cy t = dateOk cy t) ∧
    (∀ (tracks : List Track) (cy : Nat) (t : Track), t.total_tracks = 3 →
      firstHit cy t.album_name tracks = some t →
      recordsFor (aggregate tracks cy) t.album_name = [recordOf t]) := by
  refine ⟨?_, ?_, ?_, ?_⟩
  · intro cy st t h3
    unfold stepTrack
    rw [if_pos h3]
  · intro tracks cy n hall
    rw [recordsFor_aggregate]
    have hfh : firstHit cy n tracks = none := by
      unfold firstHit
      rw [List.find?_eq_none]
      intro t ht
      by_cases hn : t.album_name = n
      · have h3 := hall t ht hn
        simp [passes, h3]
      · simp [hn]
    rw [hfh]
  · intro cy t h3
    unfold passes dateOk
    rw [if_neg (by omega)]
  · intro tracks cy t h3 hfh
    rw [recordsFor_aggregate, hfh]

/-- Witness for C7 at the boundary values 2 and 3. -/
theorem claim7_track_count_boundary_witness :
    stepTrack 2024 initState ⟨"L", "2024-05-01", none, ["A"], 2⟩ = initState ∧
    recordsFor (aggregate [⟨"L", "2024-05-01", none, ["A"], 2⟩] 2024) "L" = [] ∧
    passes 2024 (⟨"T", "2024-05-01", none, ["A"], 3⟩ : Track)
      = dateOk 2024 ⟨"T", "2024-05-01", none, ["A"], 3⟩ ∧
    recordsFor (aggregate [⟨"T", "2024-05-01", none, ["A"], 3⟩] 2024) "T"
      = [recordOf ⟨"T", "2024-05-01", none, ["A"], 3⟩] :=
  ⟨claim7_track_count_boundary.1 2024 initState ⟨"L", "2024-05-01", none, ["A"], 2⟩
     (by decide),
   claim7_track_count_boundary.2.1 [⟨"L", "2024-05-01", none, ["A"], 2⟩] 2024 "L"
     (by decide),
   claim7_track_count_boundary.2.2.1 2024 ⟨"T", "2024-05-01", none, ["A"], 3⟩
     (by decide),
   claim7_track_count_boundary.2.2.2 [⟨"T", "2024-05-01", none, ["A"], 3⟩] 2024
     ⟨"T", "2024-05-01", none, ["A"], 3⟩ (by decide) (by decide)⟩

/-- C8: release-date strings are parsed by length and a length-4
(year-only) date parses with the month defaulting to January, so every
year-only release date whose year qualifies is bucketed into the current
year's January (`"01/YY"`) bucket. -/
theorem claim8_year_only_january :
    (∀ (s : String) (y m : Nat), s.length = 4 → parseReleaseDate s = some (y, m) →
      m = 1) ∧
    (∀ (tracks : List Track) (cy : Nat) (t : Track),
      firstHit cy t.album_name tracks = some t → t.release_date.length = 4 →
      recordOf t ∈ bucketAt (aggregate tracks cy) (monthKey 1 cy)) := by
  constructor
  · intro s y m h4 hp
    exact parseReleaseDate_len4_month h4 hp
  · intro tracks cy t hfh h4
    have hfh' : tracks.find? (fun u => u.album_name == t.album_name && passes cy u)
        = some t := hfh
    have hps := List.find?_some hfh'
    simp only [Bool.and_eq_true] at hps
    rcases (passes_iff cy t).mp hps.2 with ⟨h3, y, m, hp, hr, hw⟩
    have hm1 : m = 1 := parseReleaseDate_len4_month h4 hp
    have hycy : y = cy := by
      rcases hw with h | ⟨_, hm12⟩
      · exact h
      · omega
    have hk : trackKey t = monthKey 1 cy := by
      unfold trackKey
      rw [hp, hm1, hycy]
    have hchar := runTracks_init_filter cy tracks t.album_name (monthKey 1 cy)
    simp only [hfh] at hchar
    rw [if_pos hk.symm] at hchar
    have hmem : monthKey 1 cy ∈ monthsList cy :=
      mem_monthsList_of_month (by omega) (by omega)
    have hlkp : (aggregate tracks cy).lookup (monthKey 1 cy) =
        some ((runTracks cy tracks initState).buckets (monthKey 1 cy)) := by
      unfold aggregate mkResult
      exact lookup_map_pair _ hmem
    unfold bucketAt
    rw [hlkp]
    simp only [Option.getD_some]
    have hin : recordOf t ∈
        ((runTracks cy tracks initState).buckets (monthKey 1 cy)).filter
          (fun r => r.name == t.album_name) := by
      rw [hchar]
      exact List.mem_singleton.mpr rfl
    exact List.mem_of_mem_filter hin

/-- Witness for C8 at the year-only date `"2024"`. -/
theorem claim8_year_only_january_witness :
    ((1 : Nat) = 1) ∧
      recordOf (⟨"Y", "2024", none, ["A"], 5⟩ : Track) ∈
        bucketAt (aggregate [⟨"Y", "2024", none, ["A"], 5⟩] 2024) (monthKey 1 2024) :=
  ⟨claim8_year_only_january.1 "2024" 2024 1 rfl rfl,
   claim8_year_only_january.2 [⟨"Y", "2024", none, ["A"], 5⟩] 2024 _ (by decide) rfl⟩
